import Mathlib

/-!
Shallow embedding of the subsystem-lifecycle core of `TracSatController`
(`Core/Foundation.py` together with the exception types of
`Core/TracSatError.py`).

The embedding follows `Foundation.py` statement by statement:

* The `Requires`/`Target` gate registry is modelled as a `List Target`
  threaded through the pure functions `Requires.register`,
  `Requires.target`, `Requires.reach_target` and `Requires.clear_target`.
  A Python `threading.Event` is modelled by its set/unset state
  (`Target.target_lock : Bool`); blocking on an unset event is made
  explicit in the outcome type `WaitOutcome` and, dynamically, in the
  two-thread machine below.
* The caller-visible lifecycle operations of `SubsystemFoundation`,
  `ContinuousSubsystem` and `SingleExecutionSubsystem` are modelled as
  pure state transformers on records mirroring the Python attributes.
  Abstract hook methods (`initialize`, `execute`, `on_shutdown`, ...)
  have no behaviour of their own in the source, so each hook invocation
  is recorded as an event (`Ev`).
* The interaction between a caller thread and the dedicated worker
  thread of a `ContinuousSubsystem` is modelled as a small-step
  interleaving machine (`Machine`), with one step per Python statement
  that reads or writes shared state, and runs indexed by arbitrary
  schedules (`List Tid`).
-/

set_option maxHeartbeats 1000000

namespace TracSat

/-- Exception classes of `TracSatController/Core/TracSatError.py`.
`AttributeError` (a Python builtin, raised e.g. when calling a method on
`None`) is modelled separately where it matters. -/
inductive TracSatError where
  | subsystemInitializationFailure (subsystem_name : String)
  | targetNonExistentError (target_name : String)
  | targetAlreadyReachedError (target_name : String)
  deriving DecidableEq, Repr

/-- A named one-shot gate (`class Target` in `Foundation.py`). The
`threading.Event` stored in `target_lock` is modelled by its set state. -/
structure Target where
  target_name : String
  target_lock : Bool
  deriving DecidableEq, Repr

/-- Model of `Target.reach`: sets the event (the log call has no effect on
program state). -/
def Target.reach (t : Target) : Target :=
  { t with target_lock := true }

/-- Model of `Target.is_reached`: reads the event's set state. -/
def Target.is_reached (t : Target) : Bool :=
  t.target_lock

/-- Result of `Requires.target`. `immediate b` means the call returns `b`
without suspending the calling thread; `blockThenTrue` means the call
suspends the calling thread on the gate's event until the gate is reached
and then returns `True`. -/
inductive WaitOutcome where
  | immediate (result : Bool)
  | blockThenTrue
  deriving DecidableEq, Repr

/-- Model of `Requires.target(target_name, wait=True)`: scan the registry
for the first `Target` with the given name; if reached return `True`, else
block (when `wait`) or return `False`; raise `TargetNonExistentError` when
no such target exists. -/
def Requires.target (target_name : String) (wait : Bool) :
    List Target → Except TracSatError WaitOutcome
  | [] => .error (.targetNonExistentError target_name)
  | tgt :: rest =>
    if tgt.target_name = target_name then
      if tgt.is_reached then .ok (.immediate true)
      else if wait then .ok .blockThenTrue
      else .ok (.immediate false)
    else Requires.target target_name wait rest

/-- Model of `Requires.register`: unconditionally appends a fresh unreached
`Target` to the registry. The source carries the comment
`TODO Does not check for conflicting target names`, and indeed performs no
duplicate check and can raise no error. -/
def Requires.register (target_name : String) (reg : List Target) : List Target :=
  reg ++ [⟨target_name, false⟩]

/-- Model of `Requires.reach_target`: scan for the first `Target` with the
given name; raise `TargetAlreadyReachedError` if it is already reached,
otherwise reach it and return `True`; raise `TargetNonExistentError` when
no such target exists. The updated registry is returned alongside the
Python return value. -/
def Requires.reach_target (target_name : String) :
    List Target → Except TracSatError (List Target × Bool)
  | [] => .error (.targetNonExistentError target_name)
  | tgt :: rest =>
    if tgt.target_name = target_name then
      if tgt.is_reached then .error (.targetAlreadyReachedError target_name)
      else .ok (tgt.reach :: rest, true)
    else
      match Requires.reach_target target_name rest with
      | .ok (rest2, b) => .ok (tgt :: rest2, b)
      | .error e => .error e

/-- Model of the `for tgt in cls._target_registry: ... remove(tgt)` loop in
`Requires.clear_target`. Python's list iterator keeps a running index `i`;
removing the current element shifts the remainder left, so the element
after a removed one is skipped, exactly as this index-based recursion
does. -/
def Requires.clearLoop (target_name : String) (reg : List Target) (i : Nat) :
    List Target :=
  if h : i < reg.length then
    if (reg.get ⟨i, h⟩).target_name = target_name then
      Requires.clearLoop target_name (reg.eraseIdx i) (i + 1)
    else
      Requires.clearLoop target_name reg (i + 1)
  else reg
termination_by reg.length - i
decreasing_by
  · have hlen : (reg.eraseIdx i).length = reg.length - 1 := by
      rw [List.length_eraseIdx]
      simp [h]
    omega
  · omega

/-- Model of `Requires.clear_target`: remove every `Target` with the given
name that the (mutating) iteration actually visits; absent names raise no
error. -/
def Requires.clear_target (target_name : String) (reg : List Target) : List Target :=
  Requires.clearLoop target_name reg 0

/-- Lifecycle hook invocations. The abstract hook methods of
`SubsystemFoundation`/`ContinuousSubsystem` have no bodies in the source,
so each invocation is recorded as an event. -/
inductive Ev where
  | initializeEv
  | executeEv
  | onShutdownEv
  | afterShutdownEv
  | onHaltEv
  | afterHaltEv
  | onResumeEv
  | reachEv (target_name : String)
  deriving DecidableEq, Repr

/-- Model of a `threading.Thread` object as created by
`_initialize_worker_thread` and started by `start()`. -/
structure WorkerThread where
  thread_name : Option String
  daemon : Bool
  started : Bool
  deriving DecidableEq, Repr

/-- Caller-visible state of a `SubsystemFoundation` instance: the
attributes set in `__init__`, plus the list of hook events invoked so far
(oldest first). -/
structure SubsystemFoundation where
  subsystem_name : String
  is_shutdown : Bool
  subsystem_startup_did_occur : Bool
  worker_thread : Option WorkerThread
  events : List Ev
  deriving DecidableEq, Repr

/-- Model of `SubsystemFoundation.__init__`. -/
def SubsystemFoundation.init (subsystem_name : String) : SubsystemFoundation :=
  { subsystem_name := subsystem_name
    is_shutdown := false
    subsystem_startup_did_occur := false
    worker_thread := none
    events := [] }

/-- Model of `SubsystemFoundation.get_subsystem_name`. -/
def SubsystemFoundation.get_subsystem_name (s : SubsystemFoundation) : String :=
  s.subsystem_name

/-- Model of `SubsystemFoundation.shutdown`: call `on_shutdown()`, then set
`_is_shutdown = True`. Note that the source places no guard whatsoever on
this method. -/
def SubsystemFoundation.shutdown (s : SubsystemFoundation) : SubsystemFoundation :=
  { s with events := s.events ++ [Ev.onShutdownEv], is_shutdown := true }

/-- Model of `SubsystemFoundation._initialize_worker_thread`: store a fresh
(not yet started) thread object in `_worker_thread`. -/
def SubsystemFoundation.initialize_worker_thread (s : SubsystemFoundation)
    (with_name : Option String) (with_daemon : Bool) : SubsystemFoundation :=
  { s with worker_thread := some ⟨with_name, with_daemon, false⟩ }

/-- Model of `SubsystemFoundation.start`: when `_subsystem_startup_did_occur`
is still false, create the worker thread, set the flag and start the thread
(the Python method then falls off the end, returning `None`, modelled as
`none`); otherwise return `False` (`some false`) and change nothing. -/
def SubsystemFoundation.start (s : SubsystemFoundation) :
    SubsystemFoundation × Option Bool :=
  if ¬ s.subsystem_startup_did_occur then
    let s1 := s.initialize_worker_thread (some s.subsystem_name) true
    let s2 := { s1 with subsystem_startup_did_occur := true }
    let s3 :=
      { s2 with worker_thread := s2.worker_thread.map (fun w => { w with started := true }) }
    (s3, none)
  else (s, some false)

/-- Outcome of `SubsystemFoundation.acquire_lock`. Joining `None` (the
state before any successful `start()`) raises Python's `AttributeError`;
joining a real thread blocks the caller until that thread terminates. -/
inductive AcquireLockOutcome where
  | raisesAttributeError
  | joinsWorkerUntilTermination
  deriving DecidableEq, Repr

/-- Model of `SubsystemFoundation.acquire_lock`, which executes
`self._worker_thread.join()` unconditionally. -/
def SubsystemFoundation.acquire_lock (s : SubsystemFoundation) : AcquireLockOutcome :=
  match s.worker_thread with
  | none => .raisesAttributeError
  | some _ => .joinsWorkerUntilTermination

/-- Caller-visible state of a `ContinuousSubsystem` instance: the base
attributes plus `_is_halted`. -/
structure ContinuousSubsystem extends SubsystemFoundation where
  is_halted : Bool
  deriving DecidableEq, Repr

/-- Model of `ContinuousSubsystem.__init__`. -/
def ContinuousSubsystem.init (subsystem_name : String) : ContinuousSubsystem :=
  { SubsystemFoundation.init subsystem_name with is_halted := false }

/-- Model of `ContinuousSubsystem.shutdown`: set `_is_halted = True`, then
run the base-class `shutdown` (which calls `on_shutdown()` and sets
`_is_shutdown`). No guard rejects the call on an already-shut-down or
never-started subsystem. -/
def ContinuousSubsystem.shutdown (s : ContinuousSubsystem) : ContinuousSubsystem :=
  let s1 := { s with is_halted := true }
  { s1 with toSubsystemFoundation := s1.toSubsystemFoundation.shutdown }

/-- Model of `ContinuousSubsystem.resume`: call `on_resume()`, then clear
`_is_halted`. The method is total: it performs no state check and can
raise no error. -/
def ContinuousSubsystem.resume (s : ContinuousSubsystem) : ContinuousSubsystem :=
  let base := { s.toSubsystemFoundation with events := s.events ++ [Ev.onResumeEv] }
  let s1 := { s with toSubsystemFoundation := base }
  { s1 with is_halted := false }

/-- The inherited `start` on a `ContinuousSubsystem` (the subclass does not
override it). -/
def ContinuousSubsystem.start (s : ContinuousSubsystem) :
    ContinuousSubsystem × Option Bool :=
  let r := s.toSubsystemFoundation.start
  ({ s with toSubsystemFoundation := r.1 }, r.2)

/-- Model of `SingleExecutionSubsystem._worker`, run on the dedicated worker
thread after `start()`: call `initialize()` (its boolean result is the
parameter `initialize_result`, raising `SubsystemInitializationFailure`
when false), then `execute()` once, then `self.shutdown()` (which invokes
`on_shutdown()` and sets `_is_shutdown`), then `after_shutdown()` as the
final statement. -/
def SingleExecutionSubsystem.worker (s : SubsystemFoundation)
    (initialize_result : Bool) : SubsystemFoundation × Option TracSatError :=
  let s1 := { s with events := s.events ++ [Ev.initializeEv] }
  if ¬ initialize_result then
    (s1, some (.subsystemInitializationFailure s1.subsystem_name))
  else
    let s2 := { s1 with events := s1.events ++ [Ev.executeEv] }
    let s3 := s2.shutdown
    let s4 := { s3 with events := s3.events ++ [Ev.afterShutdownEv] }
    (s4, none)

/-- Thread identifiers for the two-thread interleaving model of a started
`ContinuousSubsystem`: the external caller thread and the dedicated worker
thread launched by `start()`. -/
inductive Tid where
  | caller
  | worker
  deriving DecidableEq, Repr

/-- Program counter of the worker thread, one position per statement of
`ContinuousSubsystem._worker` that reads or writes shared state. -/
inductive WPC where
  | winit      -- `if not self.initialize(): raise ...`
  | loopCheck  -- `while not self._is_shutdown:`
  | haltCheck  -- `if not self._is_halted:` / `if not halt_fulfilled:`
  | execStep   -- `halt_fulfilled = False` (if set) and `self.execute()`
  | reachGate  -- `Requires.reach_target(...); halt_fulfilled = True`
  | shutHalt   -- in `self.shutdown()`: `self._is_halted = True`
  | shutOn     -- in `super().shutdown()`: `self.on_shutdown()`
  | shutFlag   -- in `super().shutdown()`: `self._is_shutdown = True`
  | afterShut  -- `self.after_shutdown()`
  | wdone      -- `_worker` returned; the thread terminates
  | crashed (e : TracSatError)  -- an exception escaped `_worker`
  deriving DecidableEq, Repr

/-- Program counter of the caller thread inside the lifecycle method it is
currently executing; `ready` means it is between method calls. -/
inductive CPC where
  | ready
  | haltRegister   -- halt(): `Requires.register(name + ".halt")`
  | haltOnHalt     -- halt(): `self.on_halt()`
  | haltSetFlag    -- halt(): `self._is_halted = True`
  | haltWait       -- halt(): `Requires.target(name + ".halt")`
  | haltClear      -- halt(): `Requires.clear_target(name + ".halt")`
  | haltAfter      -- halt(): `self.after_halt()`
  | resumeOn       -- resume(): `self.on_resume()`
  | resumeClear    -- resume(): `self._is_halted = False`
  | shutSetHalted  -- shutdown(): `self._is_halted = True`
  | shutOnShutdown -- shutdown(): `self.on_shutdown()`
  | shutSetFlag    -- shutdown(): `self._is_shutdown = True`
  | cdone          -- the caller's whole program has finished
  | crashedC (e : TracSatError)  -- an exception escaped to the caller
  deriving DecidableEq, Repr

/-- Lifecycle methods the caller thread invokes, in order. -/
inductive COp where
  | haltOp
  | resumeOp
  | shutdownOp
  deriving DecidableEq, Repr

/-- Joint state of one started `ContinuousSubsystem`: the shared attributes
(`_is_shutdown`, `_is_halted`, the `Requires` class-level registry), the
worker-local `halt_fulfilled` variable, both program counters, the
remaining caller program, and the interleaved trace of hook invocations
(newest event first, tagged with the invoking thread). `init_result` is
the boolean the subsystem's abstract `initialize()` hook returns. -/
structure Machine where
  name : String
  init_result : Bool
  is_shutdown : Bool
  is_halted : Bool
  halt_fulfilled : Bool
  registry : List Target
  wpc : WPC
  cpc : CPC
  prog : List COp
  trace : List (Tid × Ev)
  deriving DecidableEq, Repr

/-- The name of the internal halt-acknowledgement gate,
`self.subsystem_name + ".halt"`. -/
def Machine.haltGateName (m : Machine) : String :=
  m.name ++ ".halt"

/-- One step of the worker thread (`ContinuousSubsystem._worker`). A step
from `wdone` or `crashed` does nothing: the thread has terminated. -/
def Machine.workerStep (m : Machine) : Machine :=
  match m.wpc with
  | .winit =>
    let m1 := { m with trace := (Tid.worker, Ev.initializeEv) :: m.trace }
    if m.init_result then { m1 with wpc := .loopCheck }
    else { m1 with wpc := .crashed (.subsystemInitializationFailure m.name) }
  | .loopCheck =>
    if m.is_shutdown then { m with wpc := .shutHalt } else { m with wpc := .haltCheck }
  | .haltCheck =>
    if ¬ m.is_halted then { m with wpc := .execStep }
    else if ¬ m.halt_fulfilled then { m with wpc := .reachGate }
    else { m with wpc := .loopCheck }
  | .execStep =>
    { m with halt_fulfilled := false
             trace := (Tid.worker, Ev.executeEv) :: m.trace
             wpc := .loopCheck }
  | .reachGate =>
    match Requires.reach_target m.haltGateName m.registry with
    | .ok (reg2, _) =>
      { m with registry := reg2
               trace := (Tid.worker, Ev.reachEv m.haltGateName) :: m.trace
               halt_fulfilled := true
               wpc := .loopCheck }
    | .error e => { m with wpc := .crashed e }
  | .shutHalt => { m with is_halted := true, wpc := .shutOn }
  | .shutOn =>
    { m with trace := (Tid.worker, Ev.onShutdownEv) :: m.trace, wpc := .shutFlag }
  | .shutFlag => { m with is_shutdown := true, wpc := .afterShut }
  | .afterShut =>
    { m with trace := (Tid.worker, Ev.afterShutdownEv) :: m.trace, wpc := .wdone }
  | .wdone => m
  | .crashed _ => m

/-- One step of the caller thread. At `ready` the next lifecycle method of
the caller's program is entered; at `haltWait` the caller is blocked on the
halt gate's event and only advances once the gate is reached (a step taken
while the gate is unreached changes nothing, exactly like a thread
scheduled while inside `Event.wait`). A step from `cdone` or `crashedC`
does nothing. -/
def Machine.callerStep (m : Machine) : Machine :=
  match m.cpc with
  | .ready =>
    match m.prog with
    | [] => { m with cpc := .cdone }
    | .haltOp :: rest => { m with cpc := .haltRegister, prog := rest }
    | .resumeOp :: rest => { m with cpc := .resumeOn, prog := rest }
    | .shutdownOp :: rest => { m with cpc := .shutSetHalted, prog := rest }
  | .haltRegister =>
    { m with registry := Requires.register m.haltGateName m.registry
             cpc := .haltOnHalt }
  | .haltOnHalt =>
    { m with trace := (Tid.caller, Ev.onHaltEv) :: m.trace, cpc := .haltSetFlag }
  | .haltSetFlag => { m with is_halted := true, cpc := .haltWait }
  | .haltWait =>
    match Requires.target m.haltGateName true m.registry with
    | .ok (.immediate _) => { m with cpc := .haltClear }
    | .ok .blockThenTrue => m
    | .error e => { m with cpc := .crashedC e }
  | .haltClear =>
    { m with registry := Requires.clear_target m.haltGateName m.registry
             cpc := .haltAfter }
  | .haltAfter =>
    { m with trace := (Tid.caller, Ev.afterHaltEv) :: m.trace, cpc := .ready }
  | .resumeOn =>
    { m with trace := (Tid.caller, Ev.onResumeEv) :: m.trace, cpc := .resumeClear }
  | .resumeClear => { m with is_halted := false, cpc := .ready }
  | .shutSetHalted => { m with is_halted := true, cpc := .shutOnShutdown }
  | .shutOnShutdown =>
    { m with trace := (Tid.caller, Ev.onShutdownEv) :: m.trace, cpc := .shutSetFlag }
  | .shutSetFlag => { m with is_shutdown := true, cpc := .ready }
  | .cdone => m
  | .crashedC _ => m

/-- One interleaving step by the scheduled thread. -/
def Machine.step (m : Machine) : Tid → Machine
  | .caller => m.callerStep
  | .worker => m.workerStep

/-- Run the machine under a schedule (a finite list of thread choices). -/
def Machine.run (m : Machine) (sched : List Tid) : Machine :=
  sched.foldl Machine.step m

/-- Initial state of a started continuous subsystem: both flags false (from
`__init__`), an empty registry, the worker thread about to run `_worker`,
and the caller about to run the given program of lifecycle calls. -/
def Machine.launch (name : String) (init_result : Bool) (prog : List COp) : Machine :=
  { name := name
    init_result := init_result
    is_shutdown := false
    is_halted := false
    halt_fulfilled := false
    registry := []
    wpc := .winit
    cpc := .ready
    prog := prog
    trace := [] }

/-- Number of `on_shutdown` invocations recorded in a trace. -/
def onShutdownCount (tr : List (Tid × Ev)) : Nat :=
  tr.countP (fun p => p.2 == Ev.onShutdownEv)

/-- Number of `after_shutdown` invocations recorded in a trace. -/
def afterShutdownCount (tr : List (Tid × Ev)) : Nat :=
  tr.countP (fun p => p.2 == Ev.afterShutdownEv)

/-- Number of `reach_target` calls on gate `g` recorded in a trace. -/
def reachCount (g : String) (tr : List (Tid × Ev)) : Nat :=
  tr.countP (fun p => p.2 == Ev.reachEv g)

/-- The most recent event performed by the worker thread, if any. -/
def lastWorkerEvent (tr : List (Tid × Ev)) : Option (Tid × Ev) :=
  (tr.filter (fun p => p.1 == Tid.worker)).head?

/-- True when no `execute` invocation is recorded after (more recently
than) the most recent reach of gate `g`. -/
def sinceReachNoExecute (g : String) (tr : List (Tid × Ev)) : Bool :=
  (tr.takeWhile (fun p => !(p.2 == Ev.reachEv g))).all
    (fun p => !(p.2 == Ev.executeEv))

/-! ### Invariant machinery for the caller-shutdown scenario -/

/-- Linear position of the caller inside the one-call program
`[shutdownOp]`: 0 before dispatch, 1–3 inside `shutdown()` (about to set
the halted flag / call `on_shutdown` / set the shutdown flag), 4 after
`shutdown()` returned, 5 once the program is finished. Any other
configuration is unreachable in this scenario and maps to 99. -/
def c1CallerPhase (c : CPC) (prog : List COp) : Nat :=
  match c, prog with
  | .ready, [.shutdownOp] => 0
  | .shutSetHalted, [] => 1
  | .shutOnShutdown, [] => 2
  | .shutSetFlag, [] => 3
  | .ready, [] => 4
  | .cdone, [] => 5
  | _, _ => 99

/-- True once the worker's own `shutdown()` call has executed
`self._is_halted = True`. -/
def wPastHalt : WPC → Bool
  | .shutOn => true
  | .shutFlag => true
  | .afterShut => true
  | .wdone => true
  | _ => false

/-- True once the worker's own `shutdown()` call has executed
`self.on_shutdown()`. -/
def wPastOn : WPC → Bool
  | .shutFlag => true
  | .afterShut => true
  | .wdone => true
  | _ => false

/-- True once the worker's own `shutdown()` call has executed
`self._is_shutdown = True`. -/
def wPastFlag : WPC → Bool
  | .afterShut => true
  | .wdone => true
  | _ => false

/-- Inductive invariant of every state reachable from
`Machine.launch n init [shutdownOp]`: the registry stays empty and the
worker never acknowledges a halt, the two shared flags are exactly
determined by how far each thread has progressed through its copy of the
shutdown statements, `on_shutdown` has been invoked once per thread that
has passed its `on_shutdown()` statement, `after_shutdown` exactly once
iff the worker has finished, and a finished worker's most recent action is
the `after_shutdown` invocation. -/
def C1Inv (m : Machine) : Prop :=
  m.registry = []
  ∧ m.halt_fulfilled = false
  ∧ c1CallerPhase m.cpc m.prog ≤ 5
  ∧ m.is_halted = (decide (2 ≤ c1CallerPhase m.cpc m.prog) || wPastHalt m.wpc)
  ∧ m.is_shutdown = (decide (4 ≤ c1CallerPhase m.cpc m.prog) || wPastFlag m.wpc)
  ∧ onShutdownCount m.trace =
      ((if 3 ≤ c1CallerPhase m.cpc m.prog then 1 else 0)
        + (if wPastOn m.wpc then 1 else 0))
  ∧ afterShutdownCount m.trace = (if m.wpc = .wdone then 1 else 0)
  ∧ (m.wpc = .wdone → lastWorkerEvent m.trace = some (Tid.worker, Ev.afterShutdownEv))

/-! ### Invariant machinery for the halt/resume scenario -/

/-- Linear position of the caller inside the program `[haltOp, resumeOp]`:
0 before dispatch, 1–6 inside `halt()` (register gate / `on_halt` / set
halted flag / blocked on the gate / clear gate / `after_halt`), 7 between
the calls, 8–9 inside `resume()` (`on_resume` / clear halted flag), 10
after `resume()` returned, 11 once the program is finished. Any other
configuration is unreachable in this scenario and maps to 99. -/
def c3CallerPhase (c : CPC) (prog : List COp) : Nat :=
  match c, prog with
  | .ready, [.haltOp, .resumeOp] => 0
  | .haltRegister, [.resumeOp] => 1
  | .haltOnHalt, [.resumeOp] => 2
  | .haltSetFlag, [.resumeOp] => 3
  | .haltWait, [.resumeOp] => 4
  | .haltClear, [.resumeOp] => 5
  | .haltAfter, [.resumeOp] => 6
  | .ready, [.resumeOp] => 7
  | .resumeOn, [] => 8
  | .resumeClear, [] => 9
  | .ready, [] => 10
  | .cdone, [] => 11
  | _, _ => 99

/-- Worker program counters reachable while the subsystem is never shut
down: the worker stays inside its loop. -/
def c3WpcOK : WPC → Bool
  | .winit => true
  | .loopCheck => true
  | .haltCheck => true
  | .execStep => true
  | .reachGate => true
  | _ => false

/-- Inductive invariant of every state reachable from
`Machine.launch n true [haltOp, resumeOp]`: the subsystem is never shut
down and the worker stays in its loop; the halted flag holds exactly while
the caller is between setting it (phase 4) and clearing it (phase 9); the
registry contains exactly the halt gate between its registration and its
clearing, reached as soon as the worker has acknowledged; the worker sits
at the reach statement only while the caller is blocked on the unreached
gate; the gate is reached at most once — exactly once from phase 5 on —
and from the moment it is reached until the caller's `resume()` finishes,
no `execute` invocation is recorded after the reach. -/
def C3Inv (m : Machine) : Prop :=
  m.init_result = true
  ∧ m.is_shutdown = false
  ∧ c3CallerPhase m.cpc m.prog ≤ 11
  ∧ c3WpcOK m.wpc = true
  ∧ m.is_halted =
      decide (4 ≤ c3CallerPhase m.cpc m.prog ∧ c3CallerPhase m.cpc m.prog ≤ 9)
  ∧ (c3CallerPhase m.cpc m.prog ≤ 1 → m.registry = [])
  ∧ (c3CallerPhase m.cpc m.prog = 2 ∨ c3CallerPhase m.cpc m.prog = 3 →
      m.registry = [⟨m.haltGateName, false⟩])
  ∧ (c3CallerPhase m.cpc m.prog = 4 →
      m.registry = [⟨m.haltGateName, m.halt_fulfilled⟩])
  ∧ (c3CallerPhase m.cpc m.prog = 5 → m.registry = [⟨m.haltGateName, true⟩])
  ∧ (6 ≤ c3CallerPhase m.cpc m.prog → m.registry = [])
  ∧ (c3CallerPhase m.cpc m.prog ≤ 3 → m.halt_fulfilled = false)
  ∧ (5 ≤ c3CallerPhase m.cpc m.prog → c3CallerPhase m.cpc m.prog ≤ 9 →
      m.halt_fulfilled = true)
  ∧ (m.wpc = .reachGate →
      c3CallerPhase m.cpc m.prog = 4 ∧ m.halt_fulfilled = false)
  ∧ (m.wpc = .execStep →
      (c3CallerPhase m.cpc m.prog ≤ 4 ∧ m.halt_fulfilled = false)
      ∨ 10 ≤ c3CallerPhase m.cpc m.prog)
  ∧ reachCount m.haltGateName m.trace =
      (if 5 ≤ c3CallerPhase m.cpc m.prog ∨ m.halt_fulfilled = true then 1 else 0)
  ∧ ((5 ≤ c3CallerPhase m.cpc m.prog ∨ m.halt_fulfilled = true) →
      c3CallerPhase m.cpc m.prog ≤ 9 →
      sinceReachNoExecute m.haltGateName m.trace = true)

/-- The state reached when a second `halt()` begins before the worker has
re-entered `execute` after the previous `resume()`. The schedule runs one
full halt/resume cycle (the worker acknowledges the first gate at its
`reachGate` statement), and then the caller — without the worker being
scheduled again — registers a fresh `"s.halt"` gate, runs `on_halt`, sets
the halted flag and blocks on the gate. The worker-local `halt_fulfilled`
is still `true` from the first cycle: the source resets it only inside the
not-halted branch of the loop (`Foundation.py` lines 205–206), which never
ran between the two cycles. -/
def secondHaltStuck : Machine :=
  (Machine.launch "s" true [COp.haltOp, COp.resumeOp, COp.haltOp]).run
    [Tid.worker, Tid.caller, Tid.caller, Tid.caller, Tid.caller, Tid.worker,
     Tid.worker, Tid.worker, Tid.caller, Tid.caller, Tid.caller, Tid.caller,
     Tid.caller, Tid.caller, Tid.caller, Tid.caller, Tid.caller, Tid.caller]

/-! ### Lemmas about the registry scans -/

theorem Requires.target_cons_ne (nm : String) (w : Bool) (t : Target)
    (rest : List Target) (h : t.target_name ≠ nm) :
    Requires.target nm w (t :: rest) = Requires.target nm w rest := by
  simp [Requires.target, h]

theorem Requires.target_found_reached (nm : String) (w : Bool) (pre post : List Target)
    (hpre : ∀ t ∈ pre, t.target_name ≠ nm) :
    Requires.target nm w (pre ++ ⟨nm, true⟩ :: post) = .ok (.immediate true) := by
  induction pre with
  | nil => simp [Requires.target, Target.is_reached]
  | cons t pre ih =>
    rw [List.cons_append, Requires.target_cons_ne nm w t _ (hpre t (by simp))]
    exact ih (fun u hu => hpre u (by simp [hu]))

theorem Requires.target_found_unreached (nm : String) (w : Bool) (pre post : List Target)
    (hpre : ∀ t ∈ pre, t.target_name ≠ nm) :
    Requires.target nm w (pre ++ ⟨nm, false⟩ :: post) =
      .ok (if w then .blockThenTrue else .immediate false) := by
  induction pre with
  | nil =>
    cases w <;> simp [Requires.target, Target.is_reached]
  | cons t pre ih =>
    rw [List.cons_append, Requires.target_cons_ne nm w t _ (hpre t (by simp))]
    exact ih (fun u hu => hpre u (by simp [hu]))

theorem Requires.target_absent (nm : String) (w : Bool) (reg : List Target)
    (h : ∀ t ∈ reg, t.target_name ≠ nm) :
    Requires.target nm w reg = .error (.targetNonExistentError nm) := by
  induction reg with
  | nil => rfl
  | cons t rest ih =>
    rw [Requires.target_cons_ne nm w t rest (h t (by simp))]
    exact ih (fun u hu => h u (by simp [hu]))

theorem Requires.reach_target_cons_ne (nm : String) (t : Target)
    (rest : List Target) (h : t.target_name ≠ nm) :
    Requires.reach_target nm (t :: rest) =
      match Requires.reach_target nm rest with
      | .ok (rest2, b) => .ok (t :: rest2, b)
      | .error e => .error e := by
  simp [Requires.reach_target, h]

theorem Requires.reach_target_found (nm : String) (pre post : List Target)
    (hpre : ∀ t ∈ pre, t.target_name ≠ nm) :
    Requires.reach_target nm (pre ++ ⟨nm, false⟩ :: post) =
      .ok (pre ++ ⟨nm, true⟩ :: post, true) := by
  induction pre with
  | nil => simp [Requires.reach_target, Target.is_reached, Target.reach]
  | cons t pre ih =>
    rw [List.cons_append, Requires.reach_target_cons_ne nm t _ (hpre t (by simp)),
      ih (fun u hu => hpre u (by simp [hu]))]
    rfl

theorem Requires.reach_target_already (nm : String) (pre post : List Target)
    (hpre : ∀ t ∈ pre, t.target_name ≠ nm) :
    Requires.reach_target nm (pre ++ ⟨nm, true⟩ :: post) =
      .error (.targetAlreadyReachedError nm) := by
  induction pre with
  | nil => simp [Requires.reach_target, Target.is_reached]
  | cons t pre ih =>
    rw [List.cons_append, Requires.reach_target_cons_ne nm t _ (hpre t (by simp)),
      ih (fun u hu => hpre u (by simp [hu]))]

theorem Requires.reach_target_absent (nm : String) (reg : List Target)
    (h : ∀ t ∈ reg, t.target_name ≠ nm) :
    Requires.reach_target nm reg = .error (.targetNonExistentError nm) := by
  induction reg with
  | nil => rfl
  | cons t rest ih =>
    rw [Requires.reach_target_cons_ne nm t rest (h t (by simp)),
      ih (fun u hu => h u (by simp [hu]))]

theorem Target.get_append_cons (front : List Target) (g : Target) (post : List Target)
    (h : front.length < (front ++ g :: post).length) :
    (front ++ g :: post).get ⟨front.length, h⟩ = g := by
  rw [List.get_eq_getElem, List.getElem_append_right (Nat.le_refl front.length)]
  simp

theorem Target.eraseIdx_append_cons (front : List Target) (g : Target)
    (post : List Target) :
    (front ++ g :: post).eraseIdx front.length = front ++ post := by
  induction front with
  | nil => rfl
  | cons a front ih => simpa [List.eraseIdx] using ih

theorem Requires.clearLoop_no_match (nm : String) (reg : List Target) (k : Nat)
    (h : ∀ t ∈ reg.drop k, t.target_name ≠ nm) :
    Requires.clearLoop nm reg k = reg := by
  rw [Requires.clearLoop]
  split
  · next hk =>
    have hmem : reg.get ⟨k, hk⟩ ∈ reg.drop k := by
      rw [List.drop_eq_getElem_cons hk]
      exact List.mem_cons_self _ _
    rw [if_neg (h _ hmem)]
    exact Requires.clearLoop_no_match nm reg (k + 1)
      (fun t ht => h t (by rw [List.drop_eq_getElem_cons hk]; exact List.mem_cons_of_mem _ ht))
  · rfl
termination_by reg.length - k

theorem Requires.clearLoop_removes (nm : String) (g : Target) (hg : g.target_name = nm)
    (post : List Target) (hpost : ∀ t ∈ post, t.target_name ≠ nm) :
    ∀ (pre front : List Target), (∀ t ∈ pre, t.target_name ≠ nm) →
      Requires.clearLoop nm (front ++ (pre ++ g :: post)) front.length =
        front ++ (pre ++ post) := by
  intro pre
  induction pre with
  | nil =>
    intro front _
    simp only [List.nil_append]
    rw [Requires.clearLoop]
    have hk : front.length < (front ++ g :: post).length := by simp
    rw [dif_pos hk, Target.get_append_cons front g post hk, if_pos hg,
      Target.eraseIdx_append_cons front g post]
    refine Requires.clearLoop_no_match nm (front ++ post) (front.length + 1) ?_
    intro t ht
    have hdrop : (front ++ post).drop (front.length + 1) = post.drop 1 := by
      rw [List.drop_append]
    rw [hdrop] at ht
    exact hpost t (List.mem_of_mem_drop ht)
  | cons a pre ih =>
    intro front hpre
    simp only [List.cons_append]
    rw [Requires.clearLoop]
    have hk : front.length < (front ++ a :: (pre ++ g :: post)).length := by simp
    rw [dif_pos hk, Target.get_append_cons front a (pre ++ g :: post) hk,
      if_neg (hpre a (by simp))]
    have h2 := ih (front ++ [a]) (fun u hu => hpre u (by simp [hu]))
    simpa [List.append_assoc] using h2

/-! ### Claims about the `Requires` gate registry -/

/-- C4: for every gate name `n`, `reach_target` on a registered unreached
gate transitions it to reached (and returns `True`); a second call on the
now-reached gate fails with `TargetAlreadyReachedError`; and a call when no
gate named `n` is registered fails with `TargetNonExistentError`
(the source's name for the spec's `TargetNotFoundError`). The registry is
scanned first-match, so the gate named `n` is written as the first such
entry. -/
theorem C4_reach_target_semantics (nm : String) (pre post : List Target)
    (hpre : ∀ t ∈ pre, t.target_name ≠ nm) :
    (Requires.reach_target nm (pre ++ ⟨nm, false⟩ :: post) =
      .ok (pre ++ ⟨nm, true⟩ :: post, true))
    ∧ (Requires.reach_target nm (pre ++ ⟨nm, true⟩ :: post) =
      .error (.targetAlreadyReachedError nm))
    ∧ (∀ reg : List Target, (∀ t ∈ reg, t.target_name ≠ nm) →
        Requires.reach_target nm reg = .error (.targetNonExistentError nm)) :=
  ⟨Requires.reach_target_found nm pre post hpre,
   Requires.reach_target_already nm pre post hpre,
   fun reg h => Requires.reach_target_absent nm reg h⟩

/-- C4 witness: the three cases at a concrete registry. -/
theorem C4_reach_target_semantics_witness :
    (Requires.reach_target "a" [⟨"b", false⟩, ⟨"a", false⟩] =
      .ok ([⟨"b", false⟩, ⟨"a", true⟩], true))
    ∧ (Requires.reach_target "a" [⟨"b", false⟩, ⟨"a", true⟩] =
      .error (.targetAlreadyReachedError "a"))
    ∧ (Requires.reach_target "a" [⟨"b", false⟩] =
      .error (.targetNonExistentError "a")) := by
  have h := C4_reach_target_semantics "a" [⟨"b", false⟩] []
    (by intro t ht; simp at ht; subst ht; decide)
  exact ⟨h.1, h.2.1, h.2.2 [⟨"b", false⟩] (by intro t ht; simp at ht; subst ht; decide)⟩

/-- C5: the code of `Requires.register` appends unconditionally — it does
not reject a duplicate name with a `DuplicateTargetError` (no such
exception class even exists in `TracSatError.py`); registering the same
name twice silently yields two gates of that name. The source marks this
with `TODO Does not check for conflicting target names`, and the spec
flags it as a bug to fix. -/
theorem C5_register_accepts_duplicate :
    Requires.register "a" (Requires.register "a" []) =
      [⟨"a", false⟩, ⟨"a", false⟩] := rfl

/-- C6: for a registered gate, `target` (the spec's `wait`) returns `True`
immediately when the gate is reached (for either value of `wait`); on an
unreached gate it returns `False` immediately when `wait` is false and
blocks the caller until the gate is reached — then returning `True` — when
`wait` is true; on an unregistered name it fails with
`TargetNonExistentError` (the spec's `TargetNotFoundError`). -/
theorem C6_wait_semantics (nm : String) (pre post : List Target)
    (hpre : ∀ t ∈ pre, t.target_name ≠ nm) :
    (∀ w : Bool, Requires.target nm w (pre ++ ⟨nm, true⟩ :: post) =
      .ok (.immediate true))
    ∧ Requires.target nm false (pre ++ ⟨nm, false⟩ :: post) = .ok (.immediate false)
    ∧ Requires.target nm true (pre ++ ⟨nm, false⟩ :: post) = .ok .blockThenTrue
    ∧ (∀ reg : List Target, (∀ t ∈ reg, t.target_name ≠ nm) →
        Requires.target nm true reg = .error (.targetNonExistentError nm)) :=
  ⟨fun w => Requires.target_found_reached nm w pre post hpre,
   Requires.target_found_unreached nm false pre post hpre,
   Requires.target_found_unreached nm true pre post hpre,
   fun reg h => Requires.target_absent nm true reg h⟩

/-- C6 witness: the four cases at a concrete registry. -/
theorem C6_wait_semantics_witness :
    Requires.target "a" true [⟨"b", false⟩, ⟨"a", true⟩] = .ok (.immediate true)
    ∧ Requires.target "a" false [⟨"b", false⟩, ⟨"a", false⟩] = .ok (.immediate false)
    ∧ Requires.target "a" true [⟨"b", false⟩, ⟨"a", false⟩] = .ok .blockThenTrue
    ∧ Requires.target "a" true [⟨"b", false⟩] = .error (.targetNonExistentError "a") := by
  have h := C6_wait_semantics "a" [⟨"b", false⟩] []
    (by intro t ht; simp at ht; subst ht; decide)
  exact ⟨h.1 true, h.2.1, h.2.2.1, h.2.2.2 [⟨"b", false⟩]
    (by intro t ht; simp at ht; subst ht; decide)⟩

/-- C9: `clear_target` removes the gate of the given name from the
registry (stated for a registry in the documented one-gate-per-name
discipline), and on a registry with no gate of that name it returns the
registry unchanged — it is a total function with no error path, so an
absent name raises nothing (in particular no `TargetNonExistentError`). -/
theorem C9_clear_target_semantics (nm : String) (pre post : List Target) (b : Bool)
    (hpre : ∀ t ∈ pre, t.target_name ≠ nm) (hpost : ∀ t ∈ post, t.target_name ≠ nm) :
    Requires.clear_target nm (pre ++ ⟨nm, b⟩ :: post) = pre ++ post
    ∧ (∀ reg : List Target, (∀ t ∈ reg, t.target_name ≠ nm) →
        Requires.clear_target nm reg = reg) := by
  constructor
  · have := Requires.clearLoop_removes nm ⟨nm, b⟩ rfl post hpost pre [] hpre
    simpa [Requires.clear_target] using this
  · intro reg h
    exact Requires.clearLoop_no_match nm reg 0 (by simpa using h)

/-- C9 witness: removal and the absent no-op at a concrete registry. -/
theorem C9_clear_target_semantics_witness :
    Requires.clear_target "a" [⟨"b", false⟩, ⟨"a", true⟩, ⟨"c", false⟩] =
      [⟨"b", false⟩, ⟨"c", false⟩]
    ∧ Requires.clear_target "a" [⟨"b", false⟩] = [⟨"b", false⟩] := by
  have h := C9_clear_target_semantics "a" [⟨"b", false⟩] [⟨"c", false⟩] true
    (by intro t ht; simp at ht; subst ht; decide)
    (by intro t ht; simp at ht; subst ht; decide)
  exact ⟨h.1, h.2 [⟨"b", false⟩] (by intro t ht; simp at ht; subst ht; decide)⟩

/-! ### Claims about the caller-visible lifecycle operations -/

/-- C2 (code behaviour at the claimed failing inputs): after `shutdown()`
the lifecycle operations are still accepted. `resume()` on a
started-then-shut-down continuous subsystem returns normally — it invokes
`on_resume` and clears the halted flag; its model is a total function with
no error outlet, mirroring the guard-free Python method. Likewise,
`start()` on a subsystem that was shut down before ever being started
takes the success branch and launches a worker thread. The claim (and the
spec) require these calls to fail instead. -/
theorem C2_post_shutdown_ops_accepted (n : String) :
    (((ContinuousSubsystem.init n).start.1.shutdown).resume.is_halted = false)
    ∧ (((ContinuousSubsystem.init n).start.1.shutdown).resume.events =
        ((ContinuousSubsystem.init n).start.1.shutdown).events ++ [Ev.onResumeEv])
    ∧ (((ContinuousSubsystem.init n).shutdown).start.2 = none)
    ∧ (((ContinuousSubsystem.init n).shutdown).start.1.worker_thread =
        some ⟨some n, true, true⟩) :=
  ⟨rfl, rfl, rfl, rfl⟩

/-- C7: the one-shot worker (run on the thread that a successful `start()`
launches, with `initialize` returning `True`) invokes `execute` exactly
once, then `on_shutdown`, then `after_shutdown` as the final statement,
ends in the shutdown state, and raises nothing; no halt or resume hook is
ever invoked (indeed `SingleExecutionSubsystem` defines none). -/
theorem C7_single_execution_lifecycle (n : String) :
    (SingleExecutionSubsystem.worker ((SubsystemFoundation.init n).start.1) true).1.events =
      [Ev.initializeEv, Ev.executeEv, Ev.onShutdownEv, Ev.afterShutdownEv]
    ∧ (SingleExecutionSubsystem.worker ((SubsystemFoundation.init n).start.1) true).1.events.count
        Ev.executeEv = 1
    ∧ (SingleExecutionSubsystem.worker ((SubsystemFoundation.init n).start.1) true).1.is_shutdown
        = true
    ∧ (SingleExecutionSubsystem.worker ((SubsystemFoundation.init n).start.1) true).2 = none :=
  ⟨rfl, rfl, rfl, rfl⟩

/-- C8: the first `start()` on a fresh subsystem creates and launches the
dedicated worker thread (and returns `None`); any call on a subsystem
whose startup already occurred returns `False` and leaves the state — in
particular the stored worker thread — completely unchanged, so no second
worker is ever created or launched. The startup flag is set by the first
call and no operation ever clears it. -/
theorem C8_start_only_once :
    (∀ n : String, (SubsystemFoundation.init n).start =
      ({ SubsystemFoundation.init n with
          subsystem_startup_did_occur := true
          worker_thread := some ⟨some n, true, true⟩ }, none))
    ∧ (∀ s : SubsystemFoundation, s.subsystem_startup_did_occur = true →
        s.start = (s, some false)) := by
  constructor
  · intro n
    rfl
  · intro s h
    simp [SubsystemFoundation.start, h]

/-- C8 witness: a second `start()` on a concrete started subsystem returns
`False` and changes nothing. -/
theorem C8_start_only_once_witness :
    ((SubsystemFoundation.init "s").start.1).start =
      ((SubsystemFoundation.init "s").start.1, some false) :=
  C8_start_only_once.2 ((SubsystemFoundation.init "s").start.1) rfl

/-- C10: on a freshly constructed subsystem `_worker_thread` is `None`, so
`acquire_lock()` — which unconditionally executes
`self._worker_thread.join()` — raises `AttributeError` rather than
returning normally or blocking; after a successful `start()` it joins the
worker thread. -/
theorem C10_acquire_lock_before_start (n : String) :
    (SubsystemFoundation.init n).worker_thread = none
    ∧ (SubsystemFoundation.init n).acquire_lock = .raisesAttributeError
    ∧ ((SubsystemFoundation.init n).start.1).acquire_lock =
        .joinsWorkerUntilTermination :=
  ⟨rfl, rfl, rfl⟩

/-! ### The shutdown scenario: invariant preservation -/

theorem afterShutdownCount_cons (p : Tid × Ev) (tr : List (Tid × Ev)) :
    afterShutdownCount (p :: tr) =
      afterShutdownCount tr + (if p.2 = Ev.afterShutdownEv then 1 else 0) := by
  simp [afterShutdownCount, List.countP_cons]

theorem reachCount_cons (g : String) (p : Tid × Ev) (tr : List (Tid × Ev)) :
    reachCount g (p :: tr) =
      reachCount g tr + (if p.2 = Ev.reachEv g then 1 else 0) := by
  simp [reachCount, List.countP_cons]

theorem sinceReachNoExecute_cons_reach (g : String) (t : Tid) (tr : List (Tid × Ev)) :
    sinceReachNoExecute g ((t, Ev.reachEv g) :: tr) = true := by
  simp [sinceReachNoExecute, List.takeWhile_cons]

theorem sinceReachNoExecute_cons_other (g : String) (p : Tid × Ev)
    (tr : List (Tid × Ev)) (h1 : p.2 ≠ Ev.reachEv g) (h2 : p.2 ≠ Ev.executeEv) :
    sinceReachNoExecute g (p :: tr) = sinceReachNoExecute g tr := by
  simp [sinceReachNoExecute, List.takeWhile_cons, h1, h2]


theorem C1Inv_step (m : Machine) (t : Tid) (h : C1Inv m) : C1Inv (m.step t) := by
  obtain ⟨name, initr, isS, isH, ful, reg, wpc, cpc, prog, tr⟩ := m
  obtain ⟨hreg, hful, hph, hhalt, hshut, hcnt, haft, hlast⟩ := h
  simp only at hreg hful hph hhalt hshut hcnt haft hlast
  subst hreg hful
  cases t
  case caller =>
    cases cpc <;> simp [c1CallerPhase] at hph
    case ready =>
      rcases prog with _ | ⟨op, rest⟩
      · refine ⟨rfl, rfl, ?_, ?_, ?_, ?_, ?_, ?_⟩
        · simp [Machine.step, Machine.callerStep, c1CallerPhase]
        · simpa [Machine.step, Machine.callerStep, c1CallerPhase] using hhalt
        · simpa [Machine.step, Machine.callerStep, c1CallerPhase] using hshut
        · simpa [Machine.step, Machine.callerStep, c1CallerPhase] using hcnt
        · exact haft
        · exact hlast
      · cases op
        case haltOp => simp [c1CallerPhase] at hph
        case resumeOp => simp [c1CallerPhase] at hph
        case shutdownOp =>
          rcases rest with _ | ⟨op2, rest2⟩
          · refine ⟨rfl, rfl, ?_, ?_, ?_, ?_, ?_, ?_⟩
            · simp [Machine.step, Machine.callerStep, c1CallerPhase]
            · simpa [Machine.step, Machine.callerStep, c1CallerPhase] using hhalt
            · simpa [Machine.step, Machine.callerStep, c1CallerPhase] using hshut
            · simpa [Machine.step, Machine.callerStep, c1CallerPhase] using hcnt
            · exact haft
            · exact hlast
          · simp [c1CallerPhase] at hph
    case shutSetHalted =>
      rcases prog with _ | ⟨op, rest⟩
      · refine ⟨rfl, rfl, ?_, ?_, ?_, ?_, ?_, ?_⟩
        · simp [Machine.step, Machine.callerStep, c1CallerPhase]
        · simp [Machine.step, Machine.callerStep, c1CallerPhase, wPastHalt]
        · simpa [Machine.step, Machine.callerStep, c1CallerPhase] using hshut
        · simpa [Machine.step, Machine.callerStep, c1CallerPhase] using hcnt
        · exact haft
        · exact hlast
      · simp [c1CallerPhase] at hph
    case shutOnShutdown =>
      rcases prog with _ | ⟨op, rest⟩
      · refine ⟨rfl, rfl, ?_, ?_, ?_, ?_, ?_, ?_⟩
        · simp [Machine.step, Machine.callerStep, c1CallerPhase]
        · simpa [Machine.step, Machine.callerStep, c1CallerPhase] using hhalt
        · simpa [Machine.step, Machine.callerStep, c1CallerPhase] using hshut
        · simp [Machine.step, Machine.callerStep, onShutdownCount,
            List.countP_cons, c1CallerPhase] at hcnt ⊢
          omega
        · simpa [Machine.step, Machine.callerStep, afterShutdownCount,
            List.countP_cons] using haft
        · intro hw
          simpa [Machine.step, Machine.callerStep, lastWorkerEvent,
            List.filter_cons] using hlast hw
      · simp [c1CallerPhase] at hph
    case shutSetFlag =>
      rcases prog with _ | ⟨op, rest⟩
      · refine ⟨rfl, rfl, ?_, ?_, ?_, ?_, ?_, ?_⟩
        · simp [Machine.step, Machine.callerStep, c1CallerPhase]
        · simpa [Machine.step, Machine.callerStep, c1CallerPhase] using hhalt
        · simp [Machine.step, Machine.callerStep, c1CallerPhase, wPastFlag]
        · simpa [Machine.step, Machine.callerStep, c1CallerPhase] using hcnt
        · exact haft
        · exact hlast
      · simp [c1CallerPhase] at hph
    case cdone =>
      rcases prog with _ | ⟨op, rest⟩
      · exact ⟨rfl, rfl, hph, hhalt, hshut, hcnt, haft, hlast⟩
      · simp [c1CallerPhase] at hph
  case worker =>
    cases wpc
    case winit =>
      cases initr
      · refine ⟨rfl, rfl, hph, ?_, ?_, ?_, ?_, ?_⟩
        · simpa [Machine.step, Machine.workerStep, wPastHalt] using hhalt
        · simpa [Machine.step, Machine.workerStep, wPastFlag] using hshut
        · simpa [Machine.step, Machine.workerStep, onShutdownCount,
            List.countP_cons, wPastOn] using hcnt
        · simpa [Machine.step, Machine.workerStep, afterShutdownCount,
            List.countP_cons] using haft
        · simp [Machine.step, Machine.workerStep]
      · refine ⟨rfl, rfl, hph, ?_, ?_, ?_, ?_, ?_⟩
        · simpa [Machine.step, Machine.workerStep, wPastHalt] using hhalt
        · simpa [Machine.step, Machine.workerStep, wPastFlag] using hshut
        · simpa [Machine.step, Machine.workerStep, onShutdownCount,
            List.countP_cons, wPastOn] using hcnt
        · simpa [Machine.step, Machine.workerStep, afterShutdownCount,
            List.countP_cons] using haft
        · simp [Machine.step, Machine.workerStep]
    case loopCheck =>
      cases isS
      · refine ⟨rfl, rfl, hph, ?_, ?_, ?_, ?_, ?_⟩
        · simpa [Machine.step, Machine.workerStep, wPastHalt] using hhalt
        · simpa [Machine.step, Machine.workerStep, wPastFlag] using hshut
        · simpa [Machine.step, Machine.workerStep, wPastOn] using hcnt
        · simpa [Machine.step, Machine.workerStep] using haft
        · simp [Machine.step, Machine.workerStep]
      · refine ⟨rfl, rfl, hph, ?_, ?_, ?_, ?_, ?_⟩
        · simpa [Machine.step, Machine.workerStep, wPastHalt] using hhalt
        · simpa [Machine.step, Machine.workerStep, wPastFlag] using hshut
        · simpa [Machine.step, Machine.workerStep, wPastOn] using hcnt
        · simpa [Machine.step, Machine.workerStep] using haft
        · simp [Machine.step, Machine.workerStep]
    case haltCheck =>
      cases isH
      · refine ⟨rfl, rfl, hph, ?_, ?_, ?_, ?_, ?_⟩
        · simpa [Machine.step, Machine.workerStep, wPastHalt] using hhalt
        · simpa [Machine.step, Machine.workerStep, wPastFlag] using hshut
        · simpa [Machine.step, Machine.workerStep, wPastOn] using hcnt
        · simpa [Machine.step, Machine.workerStep] using haft
        · simp [Machine.step, Machine.workerStep]
      · refine ⟨rfl, rfl, hph, ?_, ?_, ?_, ?_, ?_⟩
        · simpa [Machine.step, Machine.workerStep, wPastHalt] using hhalt
        · simpa [Machine.step, Machine.workerStep, wPastFlag] using hshut
        · simpa [Machine.step, Machine.workerStep, wPastOn] using hcnt
        · simpa [Machine.step, Machine.workerStep] using haft
        · simp [Machine.step, Machine.workerStep]
    case execStep =>
      refine ⟨rfl, rfl, hph, ?_, ?_, ?_, ?_, ?_⟩
      · simpa [Machine.step, Machine.workerStep, wPastHalt] using hhalt
      · simpa [Machine.step, Machine.workerStep, wPastFlag] using hshut
      · simpa [Machine.step, Machine.workerStep, onShutdownCount,
          List.countP_cons, wPastOn] using hcnt
      · simpa [Machine.step, Machine.workerStep, afterShutdownCount,
          List.countP_cons] using haft
      · simp [Machine.step, Machine.workerStep]
    case reachGate =>
      refine ⟨rfl, rfl, hph, ?_, ?_, ?_, ?_, ?_⟩
      · simpa [Machine.step, Machine.workerStep, Requires.reach_target,
          wPastHalt] using hhalt
      · simpa [Machine.step, Machine.workerStep, Requires.reach_target,
          wPastFlag] using hshut
      · simpa [Machine.step, Machine.workerStep, Requires.reach_target,
          wPastOn] using hcnt
      · simpa [Machine.step, Machine.workerStep, Requires.reach_target] using haft
      · simp [Machine.step, Machine.workerStep, Requires.reach_target]
    case shutHalt =>
      refine ⟨rfl, rfl, hph, ?_, ?_, ?_, ?_, ?_⟩
      · simp [Machine.step, Machine.workerStep, wPastHalt]
      · simpa [Machine.step, Machine.workerStep, wPastFlag] using hshut
      · simpa [Machine.step, Machine.workerStep, wPastOn] using hcnt
      · simpa [Machine.step, Machine.workerStep] using haft
      · simp [Machine.step, Machine.workerStep]
    case shutOn =>
      refine ⟨rfl, rfl, hph, ?_, ?_, ?_, ?_, ?_⟩
      · simpa [Machine.step, Machine.workerStep, wPastHalt] using hhalt
      · simpa [Machine.step, Machine.workerStep, wPastFlag] using hshut
      · simp [Machine.step, Machine.workerStep, onShutdownCount,
          List.countP_cons, wPastOn] at hcnt ⊢
        omega
      · simpa [Machine.step, Machine.workerStep, afterShutdownCount,
          List.countP_cons] using haft
      · simp [Machine.step, Machine.workerStep]
    case shutFlag =>
      refine ⟨rfl, rfl, hph, ?_, ?_, ?_, ?_, ?_⟩
      · simpa [Machine.step, Machine.workerStep, wPastHalt] using hhalt
      · simp [Machine.step, Machine.workerStep, wPastFlag]
      · simpa [Machine.step, Machine.workerStep, wPastOn] using hcnt
      · simpa [Machine.step, Machine.workerStep] using haft
      · simp [Machine.step, Machine.workerStep]
    case afterShut =>
      refine ⟨rfl, rfl, hph, ?_, ?_, ?_, ?_, ?_⟩
      · simpa [Machine.step, Machine.workerStep, wPastHalt] using hhalt
      · simpa [Machine.step, Machine.workerStep, wPastFlag] using hshut
      · simpa [Machine.step, Machine.workerStep, onShutdownCount,
          List.countP_cons, wPastOn] using hcnt
      · simp [Machine.step, Machine.workerStep, afterShutdownCount_cons] at haft ⊢
        omega
      · intro _
        simp [Machine.step, Machine.workerStep, lastWorkerEvent, List.filter_cons]
    case wdone =>
      exact ⟨rfl, rfl, hph, hhalt, hshut, hcnt, haft, hlast⟩
    case crashed =>
      exact ⟨rfl, rfl, hph, hhalt, hshut, hcnt, haft, hlast⟩

theorem C1Inv_launch (n : String) (b : Bool) :
    C1Inv (Machine.launch n b [COp.shutdownOp]) := by
  refine ⟨rfl, rfl, ?_, rfl, rfl, rfl, rfl, ?_⟩
  · simp [Machine.launch, c1CallerPhase]
  · intro hw
    simp [Machine.launch] at hw

theorem C1Inv_run (m : Machine) (sched : List Tid) (h : C1Inv m) :
    C1Inv (m.run sched) := by
  induction sched generalizing m with
  | nil => exact h
  | cons t ts ih => exact ih _ (C1Inv_step m t h)

/-- C1 (amended): for a started continuous subsystem whose caller invokes
`shutdown()` exactly once, in every interleaving in which both threads run
to completion (the worker exits its loop normally and terminates, the
caller's call returns), `on_shutdown` is invoked exactly twice — once by
the caller's `shutdown()` call and once more by the worker, which re-runs
`self.shutdown()` on exiting its loop — and `after_shutdown` is invoked
exactly once, by the worker, as the very last action on the worker's
execution context. -/
theorem C1_shutdown_completion (n : String) (sched : List Tid)
    (hw : ((Machine.launch n true [COp.shutdownOp]).run sched).wpc = WPC.wdone)
    (hc : ((Machine.launch n true [COp.shutdownOp]).run sched).cpc = CPC.cdone) :
    onShutdownCount ((Machine.launch n true [COp.shutdownOp]).run sched).trace = 2
    ∧ afterShutdownCount ((Machine.launch n true [COp.shutdownOp]).run sched).trace = 1
    ∧ lastWorkerEvent ((Machine.launch n true [COp.shutdownOp]).run sched).trace =
        some (Tid.worker, Ev.afterShutdownEv) := by
  obtain ⟨-, -, hph, -, -, hcnt, haft, hlast⟩ :=
    C1Inv_run (Machine.launch n true [COp.shutdownOp]) sched (C1Inv_launch n true)
  have hprog : ((Machine.launch n true [COp.shutdownOp]).run sched).prog = [] := by
    rcases hp : ((Machine.launch n true [COp.shutdownOp]).run sched).prog with _ | ⟨op, rest⟩
    · rfl
    · rw [hc, hp] at hph
      simp [c1CallerPhase] at hph
  rw [hc, hprog, hw] at hcnt
  rw [hw] at haft
  simp [c1CallerPhase, wPastOn] at hcnt
  simp at haft
  exact ⟨hcnt, haft, hlast hw⟩

/-- C1 witness: a concrete complete interleaving (worker initialises and
runs one `execute`, the caller then shuts down, the worker exits) in which
the hypotheses of `C1_shutdown_completion` hold. -/
theorem C1_shutdown_completion_witness :
    onShutdownCount ((Machine.launch "s" true [COp.shutdownOp]).run
      [Tid.worker, Tid.worker, Tid.worker, Tid.worker, Tid.caller, Tid.caller,
       Tid.caller, Tid.caller, Tid.caller, Tid.worker, Tid.worker, Tid.worker,
       Tid.worker, Tid.worker]).trace = 2 :=
  (C1_shutdown_completion "s"
    [Tid.worker, Tid.worker, Tid.worker, Tid.worker, Tid.caller, Tid.caller,
     Tid.caller, Tid.caller, Tid.caller, Tid.worker, Tid.worker, Tid.worker,
     Tid.worker, Tid.worker] (by decide) (by decide)).1

/-- C1 counterexample to the claim as stated: in a concrete complete run of
a started continuous subsystem whose caller invokes `shutdown()` exactly
once, `on_shutdown` is invoked twice, not exactly once — the caller's
`shutdown()` invokes it, and the worker's own `self.shutdown()` call on
loop exit invokes it again. -/
theorem C1_onShutdown_invoked_twice :
    (((Machine.launch "s" true [COp.shutdownOp]).run
        [Tid.worker, Tid.worker, Tid.worker, Tid.worker, Tid.caller, Tid.caller,
         Tid.caller, Tid.caller, Tid.caller, Tid.worker, Tid.worker, Tid.worker,
         Tid.worker, Tid.worker]).wpc = WPC.wdone)
    ∧ (((Machine.launch "s" true [COp.shutdownOp]).run
        [Tid.worker, Tid.worker, Tid.worker, Tid.worker, Tid.caller, Tid.caller,
         Tid.caller, Tid.caller, Tid.caller, Tid.worker, Tid.worker, Tid.worker,
         Tid.worker, Tid.worker]).cpc = CPC.cdone)
    ∧ ¬ onShutdownCount ((Machine.launch "s" true [COp.shutdownOp]).run
        [Tid.worker, Tid.worker, Tid.worker, Tid.worker, Tid.caller, Tid.caller,
         Tid.caller, Tid.caller, Tid.caller, Tid.worker, Tid.worker, Tid.worker,
         Tid.worker, Tid.worker]).trace = 1 := by
  decide

/-- Companion observation to C1: shutting down a running continuous
subsystem can crash the worker thread outright. `ContinuousSubsystem.shutdown`
sets `_is_halted` before `_is_shutdown`, so a worker that observes the
halted flag in that window runs `Requires.reach_target` on the
never-registered gate `"s.halt"` and dies with `TargetNonExistentError`;
`after_shutdown` then never runs. -/
theorem shutdown_race_crashes_worker :
    ((Machine.launch "s" true [COp.shutdownOp]).run
      [Tid.worker, Tid.worker, Tid.caller, Tid.caller, Tid.worker, Tid.worker]).wpc =
      WPC.crashed (.targetNonExistentError ("s" ++ ".halt")) := by
  decide

/-! ### The halt/resume scenario: invariant preservation -/

theorem C3Inv_step (m : Machine) (t : Tid) (h : C3Inv m) : C3Inv (m.step t) := by
  obtain ⟨name, initr, isS, isH, ful, reg, wpc, cpc, prog, tr⟩ := m
  obtain ⟨hinit, hshut, hph, hwpc, hhalt, hreg1, hreg23, hreg4, hreg5, hreg6,
    hful3, hful59, hreach, hexec, hcnt, hnoexec⟩ := h
  simp only [Machine.haltGateName] at hinit hshut hph hwpc hhalt hreg1 hreg23 hreg4 hreg5 hreg6 hful3 hful59 hreach hexec hcnt hnoexec
  subst hinit hshut
  cases t
  case caller =>
    cases cpc <;> simp [c3CallerPhase] at hph
    case ready =>
      rcases prog with _ | ⟨op, rest⟩
      · -- phase 10 → 11
        refine ⟨rfl, rfl, ?_, hwpc, ?_, ?_, ?_, ?_, ?_, ?_, ?_, ?_, ?_, ?_, ?_, ?_⟩
        · simp [Machine.step, Machine.callerStep, c3CallerPhase]
        · simpa [Machine.step, Machine.callerStep, c3CallerPhase] using hhalt
        · simp [Machine.step, Machine.callerStep, c3CallerPhase]
        · simp [Machine.step, Machine.callerStep, c3CallerPhase]
        · simp [Machine.step, Machine.callerStep, c3CallerPhase]
        · simp [Machine.step, Machine.callerStep, c3CallerPhase]
        · intro _
          exact hreg6 (by simp [c3CallerPhase])
        · simp [Machine.step, Machine.callerStep, c3CallerPhase]
        · simp [Machine.step, Machine.callerStep, c3CallerPhase]
        · intro hw
          have h4 := (hreach hw).1
          simp [c3CallerPhase] at h4
        · intro hw
          have h2 := hexec hw
          simp [Machine.step, Machine.callerStep, c3CallerPhase] at h2 ⊢
        · simpa [Machine.step, Machine.callerStep, c3CallerPhase] using hcnt
        · simp [Machine.step, Machine.callerStep, c3CallerPhase]
      · cases op
        case shutdownOp =>
          rcases rest with _ | ⟨op2, rest2⟩ <;> simp [c3CallerPhase] at hph
        case resumeOp =>
          rcases rest with _ | ⟨op2, rest2⟩
          · -- phase 7 → 8
            refine ⟨rfl, rfl, ?_, hwpc, ?_, ?_, ?_, ?_, ?_, ?_, ?_, ?_, ?_, ?_, ?_, ?_⟩
            · simp [Machine.step, Machine.callerStep, c3CallerPhase]
            · simpa [Machine.step, Machine.callerStep, c3CallerPhase] using hhalt
            · simp [Machine.step, Machine.callerStep, c3CallerPhase]
            · simp [Machine.step, Machine.callerStep, c3CallerPhase]
            · simp [Machine.step, Machine.callerStep, c3CallerPhase]
            · simp [Machine.step, Machine.callerStep, c3CallerPhase]
            · intro _
              exact hreg6 (by simp [c3CallerPhase])
            · simp [Machine.step, Machine.callerStep, c3CallerPhase]
            · intro _ _
              exact hful59 (by simp [c3CallerPhase]) (by simp [c3CallerPhase])
            · intro hw
              have h4 := (hreach hw).1
              simp [c3CallerPhase] at h4
            · intro hw
              have h2 := hexec hw
              simp [Machine.step, Machine.callerStep, c3CallerPhase] at h2 ⊢
            · simpa [Machine.step, Machine.callerStep, c3CallerPhase] using hcnt
            · intro _ _
              exact hnoexec (by simp [c3CallerPhase]) (by simp [c3CallerPhase])
          · simp [c3CallerPhase] at hph
        case haltOp =>
          rcases rest with _ | ⟨op2, rest2⟩
          · simp [c3CallerPhase] at hph
          · cases op2
            case haltOp => simp [c3CallerPhase] at hph
            case shutdownOp => simp [c3CallerPhase] at hph
            case resumeOp =>
              rcases rest2 with _ | ⟨op3, rest3⟩
              · -- phase 0 → 1
                refine ⟨rfl, rfl, ?_, hwpc, ?_, ?_, ?_, ?_, ?_, ?_, ?_, ?_, ?_, ?_, ?_, ?_⟩
                · simp [Machine.step, Machine.callerStep, c3CallerPhase]
                · simpa [Machine.step, Machine.callerStep, c3CallerPhase] using hhalt
                · intro _
                  exact hreg1 (by simp [c3CallerPhase])
                · simp [Machine.step, Machine.callerStep, c3CallerPhase]
                · simp [Machine.step, Machine.callerStep, c3CallerPhase]
                · simp [Machine.step, Machine.callerStep, c3CallerPhase]
                · simp [Machine.step, Machine.callerStep, c3CallerPhase]
                · intro _
                  exact hful3 (by simp [c3CallerPhase])
                · simp [Machine.step, Machine.callerStep, c3CallerPhase]
                · intro hw
                  have h4 := (hreach hw).1
                  simp [c3CallerPhase] at h4
                · intro hw
                  have h2 := hexec hw
                  simp [Machine.step, Machine.callerStep, c3CallerPhase] at h2 ⊢
                  exact h2
                · simpa [Machine.step, Machine.callerStep, c3CallerPhase] using hcnt
                · intro hc hle
                  simp [Machine.step, Machine.callerStep, c3CallerPhase] at hc
                  have hff := hful3 (by simp [c3CallerPhase])
                  simp [hff] at hc
              · simp [c3CallerPhase] at hph
    case haltRegister =>
      rcases prog with _ | ⟨op, rest⟩
      · simp [c3CallerPhase] at hph
      · cases op
        case haltOp => simp [c3CallerPhase] at hph
        case shutdownOp => simp [c3CallerPhase] at hph
        case resumeOp =>
          rcases rest with _ | ⟨op2, rest2⟩
          · -- phase 1 → 2: registry := register
            have hr : reg = [] := hreg1 (by simp [c3CallerPhase])
            subst hr
            refine ⟨rfl, rfl, ?_, hwpc, ?_, ?_, ?_, ?_, ?_, ?_, ?_, ?_, ?_, ?_, ?_, ?_⟩
            · simp [Machine.step, Machine.callerStep, c3CallerPhase]
            · simpa [Machine.step, Machine.callerStep, c3CallerPhase] using hhalt
            · simp [Machine.step, Machine.callerStep, c3CallerPhase]
            · intro _
              simp [Machine.step, Machine.callerStep, Machine.haltGateName,
                Requires.register]
            · simp [Machine.step, Machine.callerStep, c3CallerPhase]
            · simp [Machine.step, Machine.callerStep, c3CallerPhase]
            · simp [Machine.step, Machine.callerStep, c3CallerPhase]
            · intro _
              exact hful3 (by simp [c3CallerPhase])
            · simp [Machine.step, Machine.callerStep, c3CallerPhase]
            · intro hw
              have h4 := (hreach hw).1
              simp [c3CallerPhase] at h4
            · intro hw
              have h2 := hexec hw
              simp [Machine.step, Machine.callerStep, c3CallerPhase] at h2 ⊢
              exact h2
            · simpa [Machine.step, Machine.callerStep, c3CallerPhase] using hcnt
            · intro hc hle
              simp [Machine.step, Machine.callerStep, c3CallerPhase] at hc
              have hff := hful3 (by simp [c3CallerPhase])
              simp [hff] at hc
          · simp [c3CallerPhase] at hph
    case haltOnHalt =>
      rcases prog with _ | ⟨op, rest⟩
      · simp [c3CallerPhase] at hph
      · cases op
        case haltOp => simp [c3CallerPhase] at hph
        case shutdownOp => simp [c3CallerPhase] at hph
        case resumeOp =>
          rcases rest with _ | ⟨op2, rest2⟩
          · -- phase 2 → 3: emits onHaltEv
            refine ⟨rfl, rfl, ?_, hwpc, ?_, ?_, ?_, ?_, ?_, ?_, ?_, ?_, ?_, ?_, ?_, ?_⟩
            · simp [Machine.step, Machine.callerStep, c3CallerPhase]
            · simpa [Machine.step, Machine.callerStep, c3CallerPhase] using hhalt
            · simp [Machine.step, Machine.callerStep, c3CallerPhase]
            · intro _
              exact hreg23 (Or.inl (by simp [c3CallerPhase]))
            · simp [Machine.step, Machine.callerStep, c3CallerPhase]
            · simp [Machine.step, Machine.callerStep, c3CallerPhase]
            · simp [Machine.step, Machine.callerStep, c3CallerPhase]
            · intro _
              exact hful3 (by simp [c3CallerPhase])
            · simp [Machine.step, Machine.callerStep, c3CallerPhase]
            · intro hw
              have h4 := (hreach hw).1
              simp [c3CallerPhase] at h4
            · intro hw
              have h2 := hexec hw
              simp [Machine.step, Machine.callerStep, c3CallerPhase] at h2 ⊢
              exact h2
            · simpa [Machine.step, Machine.callerStep, Machine.haltGateName,
                reachCount_cons, c3CallerPhase] using hcnt
            · intro hc hle
              simp [Machine.step, Machine.callerStep, c3CallerPhase] at hc
              have hff := hful3 (by simp [c3CallerPhase])
              simp [hff] at hc
          · simp [c3CallerPhase] at hph
    case haltSetFlag =>
      rcases prog with _ | ⟨op, rest⟩
      · simp [c3CallerPhase] at hph
      · cases op
        case haltOp => simp [c3CallerPhase] at hph
        case shutdownOp => simp [c3CallerPhase] at hph
        case resumeOp =>
          rcases rest with _ | ⟨op2, rest2⟩
          · -- phase 3 → 4: sets the halted flag
            refine ⟨rfl, rfl, ?_, hwpc, ?_, ?_, ?_, ?_, ?_, ?_, ?_, ?_, ?_, ?_, ?_, ?_⟩
            · simp [Machine.step, Machine.callerStep, c3CallerPhase]
            · simp [Machine.step, Machine.callerStep, c3CallerPhase]
            · simp [Machine.step, Machine.callerStep, c3CallerPhase]
            · simp [Machine.step, Machine.callerStep, c3CallerPhase]
            · intro _
              have hr := hreg23 (Or.inr (by simp [c3CallerPhase]))
              have hf := hful3 (by simp [c3CallerPhase])
              simp [Machine.step, Machine.callerStep, Machine.haltGateName, hr, hf]
            · simp [Machine.step, Machine.callerStep, c3CallerPhase]
            · simp [Machine.step, Machine.callerStep, c3CallerPhase]
            · intro _
              exact hful3 (by simp [c3CallerPhase])
            · simp [Machine.step, Machine.callerStep, c3CallerPhase]
            · intro hw
              have h4 := (hreach hw).1
              simp [c3CallerPhase] at h4
            · intro hw
              have h2 := hexec hw
              simp [Machine.step, Machine.callerStep, c3CallerPhase] at h2 ⊢
              exact h2
            · simpa [Machine.step, Machine.callerStep, c3CallerPhase] using hcnt
            · intro hc hle
              simp [Machine.step, Machine.callerStep, c3CallerPhase] at hc
              have hff := hful3 (by simp [c3CallerPhase])
              simp [hff] at hc
          · simp [c3CallerPhase] at hph
    case haltWait =>
      rcases prog with _ | ⟨op, rest⟩
      · simp [c3CallerPhase] at hph
      · cases op
        case haltOp => simp [c3CallerPhase] at hph
        case shutdownOp => simp [c3CallerPhase] at hph
        case resumeOp =>
          rcases rest with _ | ⟨op2, rest2⟩
          · -- phase 4: blocked on the gate, or released when it is reached
            have hr : reg = [⟨name ++ ".halt", ful⟩] :=
              hreg4 (by simp [c3CallerPhase])
            subst hr
            cases ful
            · -- gate unreached: the caller stays blocked; nothing changes
              have ht : Requires.target (name ++ ".halt") true
                  [⟨name ++ ".halt", false⟩] = .ok .blockThenTrue := by
                simp [Requires.target, Target.is_reached]
              have hs : (⟨name, true, false, isH, false,
                    [⟨name ++ ".halt", false⟩], wpc, CPC.haltWait,
                    [COp.resumeOp], tr⟩ : Machine).step Tid.caller =
                  ⟨name, true, false, isH, false, [⟨name ++ ".halt", false⟩],
                    wpc, CPC.haltWait, [COp.resumeOp], tr⟩ := by
                simp [Machine.step, Machine.callerStep, Machine.haltGateName, ht]
              rw [hs]
              exact ⟨rfl, rfl, hph, hwpc, hhalt, hreg1, hreg23, hreg4, hreg5,
                hreg6, hful3, hful59, hreach, hexec, hcnt, hnoexec⟩
            · -- gate reached: the caller is released, phase 4 → 5
              have ht : Requires.target (name ++ ".halt") true
                  [⟨name ++ ".halt", true⟩] = .ok (.immediate true) := by
                simp [Requires.target, Target.is_reached]
              have hs : (⟨name, true, false, isH, true,
                    [⟨name ++ ".halt", true⟩], wpc, CPC.haltWait,
                    [COp.resumeOp], tr⟩ : Machine).step Tid.caller =
                  ⟨name, true, false, isH, true, [⟨name ++ ".halt", true⟩],
                    wpc, CPC.haltClear, [COp.resumeOp], tr⟩ := by
                simp [Machine.step, Machine.callerStep, Machine.haltGateName, ht]
              rw [hs]
              refine ⟨rfl, rfl, ?_, hwpc, ?_, ?_, ?_, ?_, ?_, ?_, ?_, ?_, ?_, ?_, ?_, ?_⟩
              · simp [c3CallerPhase]
              · simpa [c3CallerPhase] using hhalt
              · simp [c3CallerPhase]
              · simp [c3CallerPhase]
              · simp [c3CallerPhase]
              · intro _
                rfl
              · simp [c3CallerPhase]
              · simp [c3CallerPhase]
              · intro _ _
                rfl
              · intro hw
                have hf := (hreach hw).2
                simp at hf
              · intro hw
                have h2 := hexec hw
                simp [c3CallerPhase] at h2
              · simpa [c3CallerPhase] using hcnt
              · intro _ _
                exact hnoexec (Or.inr rfl) (by simp [c3CallerPhase])
          · simp [c3CallerPhase] at hph
    case haltClear =>
      rcases prog with _ | ⟨op, rest⟩
      · simp [c3CallerPhase] at hph
      · cases op
        case haltOp => simp [c3CallerPhase] at hph
        case shutdownOp => simp [c3CallerPhase] at hph
        case resumeOp =>
          rcases rest with _ | ⟨op2, rest2⟩
          · -- phase 5 → 6: clears the gate from the registry
            have hr : reg = [⟨name ++ ".halt", true⟩] :=
              hreg5 (by simp [c3CallerPhase])
            subst hr
            have hcl : Requires.clear_target (name ++ ".halt")
                [⟨name ++ ".halt", true⟩] = [] := by
              rw [Requires.clear_target, Requires.clearLoop]
              simp [Requires.clearLoop]
            have hf : ful = true :=
              hful59 (by simp [c3CallerPhase]) (by simp [c3CallerPhase])
            subst hf
            refine ⟨rfl, rfl, ?_, hwpc, ?_, ?_, ?_, ?_, ?_, ?_, ?_, ?_, ?_, ?_, ?_, ?_⟩ <;>
              simp only [Machine.step, Machine.callerStep, Machine.haltGateName, hcl]
            · simp [c3CallerPhase]
            · simpa [c3CallerPhase] using hhalt
            · simp [c3CallerPhase]
            · simp [c3CallerPhase]
            · simp [c3CallerPhase]
            · simp [c3CallerPhase]
            · simp [c3CallerPhase]
            · simp [c3CallerPhase]
            · simp [c3CallerPhase]
            · intro hw
              have hf2 := (hreach hw).2
              simp at hf2
            · intro hw
              have h2 := hexec hw
              simp [c3CallerPhase] at h2
            · simpa [c3CallerPhase] using hcnt
            · intro _ _
              exact hnoexec (Or.inl (by simp [c3CallerPhase])) (by simp [c3CallerPhase])
          · simp [c3CallerPhase] at hph
    case haltAfter =>
      rcases prog with _ | ⟨op, rest⟩
      · simp [c3CallerPhase] at hph
      · cases op
        case haltOp => simp [c3CallerPhase] at hph
        case shutdownOp => simp [c3CallerPhase] at hph
        case resumeOp =>
          rcases rest with _ | ⟨op2, rest2⟩
          · -- phase 6 → 7: emits afterHaltEv
            have hf : ful = true :=
              hful59 (by simp [c3CallerPhase]) (by simp [c3CallerPhase])
            subst hf
            refine ⟨rfl, rfl, ?_, hwpc, ?_, ?_, ?_, ?_, ?_, ?_, ?_, ?_, ?_, ?_, ?_, ?_⟩
            · simp [Machine.step, Machine.callerStep, c3CallerPhase]
            · simpa [Machine.step, Machine.callerStep, c3CallerPhase] using hhalt
            · simp [Machine.step, Machine.callerStep, c3CallerPhase]
            · simp [Machine.step, Machine.callerStep, c3CallerPhase]
            · simp [Machine.step, Machine.callerStep, c3CallerPhase]
            · simp [Machine.step, Machine.callerStep, c3CallerPhase]
            · intro _
              exact hreg6 (by simp [c3CallerPhase])
            · simp [Machine.step, Machine.callerStep, c3CallerPhase]
            · simp [Machine.step, Machine.callerStep, c3CallerPhase]
            · intro hw
              have h4 := (hreach hw).1
              simp [c3CallerPhase] at h4
            · intro hw
              have h2 := hexec hw
              simp [Machine.step, Machine.callerStep, c3CallerPhase] at h2
            · simpa [Machine.step, Machine.callerStep, Machine.haltGateName,
                reachCount_cons, c3CallerPhase] using hcnt
            · intro _ _
              have hold := hnoexec (Or.inl (by simp [c3CallerPhase]))
                (by simp [c3CallerPhase])
              simp [Machine.step, Machine.callerStep, Machine.haltGateName,
                sinceReachNoExecute_cons_other, hold]
          · simp [c3CallerPhase] at hph
    case resumeOn =>
      rcases prog with _ | ⟨op, rest⟩
      · -- phase 8 → 9: emits onResumeEv
        have hf : ful = true :=
          hful59 (by simp [c3CallerPhase]) (by simp [c3CallerPhase])
        subst hf
        refine ⟨rfl, rfl, ?_, hwpc, ?_, ?_, ?_, ?_, ?_, ?_, ?_, ?_, ?_, ?_, ?_, ?_⟩
        · simp [Machine.step, Machine.callerStep, c3CallerPhase]
        · simpa [Machine.step, Machine.callerStep, c3CallerPhase] using hhalt
        · simp [Machine.step, Machine.callerStep, c3CallerPhase]
        · simp [Machine.step, Machine.callerStep, c3CallerPhase]
        · simp [Machine.step, Machine.callerStep, c3CallerPhase]
        · simp [Machine.step, Machine.callerStep, c3CallerPhase]
        · intro _
          exact hreg6 (by simp [c3CallerPhase])
        · simp [Machine.step, Machine.callerStep, c3CallerPhase]
        · simp [Machine.step, Machine.callerStep, c3CallerPhase]
        · intro hw
          have h4 := (hreach hw).1
          simp [c3CallerPhase] at h4
        · intro hw
          have h2 := hexec hw
          simp [Machine.step, Machine.callerStep, c3CallerPhase] at h2
        · simpa [Machine.step, Machine.callerStep, Machine.haltGateName,
            reachCount_cons, c3CallerPhase] using hcnt
        · intro _ _
          have hold := hnoexec (Or.inl (by simp [c3CallerPhase]))
            (by simp [c3CallerPhase])
          simp [Machine.step, Machine.callerStep, Machine.haltGateName,
            sinceReachNoExecute_cons_other, hold]
      · simp [c3CallerPhase] at hph
    case resumeClear =>
      rcases prog with _ | ⟨op, rest⟩
      · -- phase 9 → 10: clears the halted flag
        refine ⟨rfl, rfl, ?_, hwpc, ?_, ?_, ?_, ?_, ?_, ?_, ?_, ?_, ?_, ?_, ?_, ?_⟩
        · simp [Machine.step, Machine.callerStep, c3CallerPhase]
        · simp [Machine.step, Machine.callerStep, c3CallerPhase]
        · simp [Machine.step, Machine.callerStep, c3CallerPhase]
        · simp [Machine.step, Machine.callerStep, c3CallerPhase]
        · simp [Machine.step, Machine.callerStep, c3CallerPhase]
        · simp [Machine.step, Machine.callerStep, c3CallerPhase]
        · intro _
          exact hreg6 (by simp [c3CallerPhase])
        · simp [Machine.step, Machine.callerStep, c3CallerPhase]
        · simp [Machine.step, Machine.callerStep, c3CallerPhase]
        · intro hw
          have h4 := (hreach hw).1
          simp [c3CallerPhase] at h4
        · intro hw
          have h2 := hexec hw
          simp [Machine.step, Machine.callerStep, c3CallerPhase] at h2 ⊢
        · simpa [Machine.step, Machine.callerStep, c3CallerPhase] using hcnt
        · simp [Machine.step, Machine.callerStep, c3CallerPhase]
      · simp [c3CallerPhase] at hph
    case cdone =>
      rcases prog with _ | ⟨op, rest⟩
      · exact ⟨rfl, rfl, hph, hwpc, hhalt, hreg1, hreg23, hreg4, hreg5, hreg6,
          hful3, hful59, hreach, hexec, hcnt, hnoexec⟩
      · simp [c3CallerPhase] at hph
  case worker =>
    cases wpc <;> simp [c3WpcOK] at hwpc
    case winit =>
      refine ⟨rfl, rfl, hph, ?_, ?_, hreg1, hreg23, hreg4, hreg5, hreg6,
        hful3, hful59, ?_, ?_, ?_, ?_⟩
      · simp [Machine.step, Machine.workerStep, c3WpcOK]
      · exact hhalt
      · intro hw
        simp [Machine.step, Machine.workerStep] at hw
      · intro hw
        simp [Machine.step, Machine.workerStep] at hw
      · simpa [Machine.step, Machine.workerStep, Machine.haltGateName,
          reachCount_cons] using hcnt
      · intro hc hle
        have hold := hnoexec hc hle
        simp [Machine.step, Machine.workerStep, Machine.haltGateName,
          sinceReachNoExecute_cons_other, hold]
    case loopCheck =>
      refine ⟨rfl, rfl, hph, ?_, hhalt, hreg1, hreg23, hreg4, hreg5, hreg6,
        hful3, hful59, ?_, ?_, hcnt, hnoexec⟩
      · simp [Machine.step, Machine.workerStep, c3WpcOK]
      · intro hw
        simp [Machine.step, Machine.workerStep] at hw
      · intro hw
        simp [Machine.step, Machine.workerStep] at hw
    case haltCheck =>
      cases isH
      case false =>
        -- not halted: the worker moves to the execute statement
        have hnh : ¬ (4 ≤ c3CallerPhase cpc prog ∧ c3CallerPhase cpc prog ≤ 9) :=
          of_decide_eq_false hhalt.symm
        refine ⟨rfl, rfl, hph, ?_, hhalt, hreg1, hreg23, hreg4, hreg5, hreg6,
          hful3, hful59, ?_, ?_, hcnt, hnoexec⟩
        · simp [Machine.step, Machine.workerStep, c3WpcOK]
        · intro hw
          simp [Machine.step, Machine.workerStep] at hw
        · intro _
          show (c3CallerPhase cpc prog ≤ 4 ∧ ful = false) ∨ 10 ≤ c3CallerPhase cpc prog
          rcases Nat.lt_or_ge (c3CallerPhase cpc prog) 4 with h4 | h4
          · exact Or.inl ⟨by omega, hful3 (by omega)⟩
          · push_neg at hnh
            exact Or.inr (by have := hnh h4; omega)
      case true =>
        have hp49 : 4 ≤ c3CallerPhase cpc prog ∧ c3CallerPhase cpc prog ≤ 9 :=
          of_decide_eq_true hhalt.symm
        cases ful
        case false =>
          -- halted, acknowledgement pending: move to the reach statement
          refine ⟨rfl, rfl, hph, ?_, hhalt, hreg1, hreg23, hreg4, hreg5, hreg6,
            hful3, hful59, ?_, ?_, hcnt, hnoexec⟩
          · simp [Machine.step, Machine.workerStep, c3WpcOK]
          · intro _
            refine ⟨?_, rfl⟩
            show c3CallerPhase cpc prog = 4
            by_contra hne
            have h5 : 5 ≤ c3CallerPhase cpc prog := by omega
            have := hful59 h5 hp49.2
            simp at this
          · intro hw
            simp [Machine.step, Machine.workerStep] at hw
        case true =>
          -- halted and already acknowledged: spin back to the loop check
          refine ⟨rfl, rfl, hph, ?_, hhalt, hreg1, hreg23, hreg4, hreg5, hreg6,
            hful3, hful59, ?_, ?_, hcnt, hnoexec⟩
          · simp [Machine.step, Machine.workerStep, c3WpcOK]
          · intro hw
            simp [Machine.step, Machine.workerStep] at hw
          · intro hw
            simp [Machine.step, Machine.workerStep] at hw
    case execStep =>
      have h2 := hexec rfl
      refine ⟨rfl, rfl, hph, ?_, hhalt, hreg1, hreg23, ?_, hreg5, hreg6,
        ?_, ?_, ?_, ?_, ?_, ?_⟩
      · simp [Machine.step, Machine.workerStep, c3WpcOK]
      · show c3CallerPhase cpc prog = 4 → reg = [⟨name ++ ".halt", false⟩]
        intro h4'
        rcases h2 with ⟨h4, hf⟩ | h10
        · simpa [hf] using hreg4 h4'
        · omega
      · show c3CallerPhase cpc prog ≤ 3 → false = false
        intro _
        rfl
      · show 5 ≤ c3CallerPhase cpc prog → c3CallerPhase cpc prog ≤ 9 → false = true
        intro h5 h9
        rcases h2 with ⟨h4, -⟩ | h10 <;> omega
      · intro hw
        simp [Machine.step, Machine.workerStep] at hw
      · intro hw
        simp [Machine.step, Machine.workerStep] at hw
      · show reachCount (name ++ ".halt") ((Tid.worker, Ev.executeEv) :: tr) =
          if 5 ≤ c3CallerPhase cpc prog ∨ false = true then 1 else 0
        rcases h2 with ⟨h4, hf⟩ | h10
        · simpa [reachCount_cons, hf] using hcnt
        · have h5 : 5 ≤ c3CallerPhase cpc prog := by omega
          simpa [reachCount_cons, h5] using hcnt
      · show (5 ≤ c3CallerPhase cpc prog ∨ false = true) →
          c3CallerPhase cpc prog ≤ 9 →
          sinceReachNoExecute (name ++ ".halt")
            ((Tid.worker, Ev.executeEv) :: tr) = true
        intro hc h9
        rcases h2 with ⟨h4, hf⟩ | h10
        · rcases hc with h5 | hT
          · omega
          · simp at hT
        · omega
    case reachGate =>
      obtain ⟨hp4, hf⟩ := hreach rfl
      subst hf
      have hr : reg = [⟨name ++ ".halt", false⟩] := by
        simpa using hreg4 hp4
      subst hr
      have hrt : Requires.reach_target (name ++ ".halt")
          [⟨name ++ ".halt", false⟩] = .ok ([⟨name ++ ".halt", true⟩], true) := by
        simp [Requires.reach_target, Target.is_reached, Target.reach]
      have hs : (⟨name, true, false, isH, false, [⟨name ++ ".halt", false⟩],
            WPC.reachGate, cpc, prog, tr⟩ : Machine).step Tid.worker =
          ⟨name, true, false, isH, true, [⟨name ++ ".halt", true⟩],
            WPC.loopCheck, cpc, prog,
            (Tid.worker, Ev.reachEv (name ++ ".halt")) :: tr⟩ := by
        simp [Machine.step, Machine.workerStep, Machine.haltGateName, hrt]
      rw [hs]
      refine ⟨rfl, rfl, hph, rfl, hhalt, ?_, ?_, ?_, ?_, ?_, ?_, ?_, ?_, ?_, ?_, ?_⟩
      · show c3CallerPhase cpc prog ≤ 1 →
          [(⟨name ++ ".halt", true⟩ : Target)] = []
        intro h1
        exact absurd h1 (by omega)
      · show c3CallerPhase cpc prog = 2 ∨ c3CallerPhase cpc prog = 3 →
          [(⟨name ++ ".halt", true⟩ : Target)] = [⟨name ++ ".halt", false⟩]
        intro hd
        rcases hd with h | h <;> exact absurd h (by omega)
      · intro _
        rfl
      · intro _
        rfl
      · show 6 ≤ c3CallerPhase cpc prog →
          [(⟨name ++ ".halt", true⟩ : Target)] = []
        intro h6
        exact absurd h6 (by omega)
      · show c3CallerPhase cpc prog ≤ 3 → true = false
        intro h3
        exact absurd h3 (by omega)
      · intro _ _
        rfl
      · intro hw
        simp at hw
      · intro hw
        simp at hw
      · show reachCount (name ++ ".halt")
            ((Tid.worker, Ev.reachEv (name ++ ".halt")) :: tr) =
          if 5 ≤ c3CallerPhase cpc prog ∨ true = true then 1 else 0
        simp [reachCount_cons, hp4] at hcnt ⊢
        omega
      · intro _ _
        exact sinceReachNoExecute_cons_reach _ _ _

theorem C3Inv_launch (n : String) :
    C3Inv (Machine.launch n true [COp.haltOp, COp.resumeOp]) := by
  refine ⟨rfl, rfl, ?_, rfl, ?_, ?_, ?_, ?_, ?_, ?_, ?_, ?_, ?_, ?_, ?_, ?_⟩
  · simp [Machine.launch, c3CallerPhase]
  · simp [Machine.launch, c3CallerPhase]
  · intro _
    rfl
  · intro hd
    simp [Machine.launch, c3CallerPhase] at hd
  · intro h4
    simp [Machine.launch, c3CallerPhase] at h4
  · intro h5
    simp [Machine.launch, c3CallerPhase] at h5
  · intro h6
    simp [Machine.launch, c3CallerPhase] at h6
  · intro _
    rfl
  · intro h5
    simp [Machine.launch, c3CallerPhase] at h5
  · intro hw
    simp [Machine.launch] at hw
  · intro hw
    simp [Machine.launch] at hw
  · simp [Machine.launch, c3CallerPhase, reachCount]
  · intro hc _
    simp [Machine.launch, c3CallerPhase] at hc

theorem C3Inv_run (m : Machine) (sched : List Tid) (h : C3Inv m) :
    C3Inv (m.run sched) := by
  induction sched generalizing m with
  | nil => exact h
  | cons t ts ih => exact ih _ (C3Inv_step m t h)

/-- C3 (amended): within a halt cycle begun while the worker's per-halt
acknowledgement flag is clear — in particular the first halt cycle of a
started continuous subsystem, modelled here as the caller invoking
`halt()` and then `resume()` — in every interleaving: the worker reaches
the internal per-halt gate `"<name>.halt"` at most once (never twice);
whenever the halted flag is still set and the gate has been reached, no
`execute` invocation has occurred after the reach — so `execute` is not
invoked again until `resume()` clears the halted flag; and in every run in
which the caller's program has completed, the gate was reached exactly
once. The restriction to such cycles is forced: a halt cycle begun before
the worker re-enters `execute` after the previous `resume()` finds the
stale acknowledgement flag and is never acknowledged at all (see
`C3_second_halt_counterexample` and `C3_second_halt_never_acknowledged`). -/
theorem C3_halt_gate_once (n : String) (sched : List Tid) :
    reachCount ((Machine.launch n true [COp.haltOp, COp.resumeOp]).run sched).haltGateName
        ((Machine.launch n true [COp.haltOp, COp.resumeOp]).run sched).trace ≤ 1
    ∧ (((Machine.launch n true [COp.haltOp, COp.resumeOp]).run sched).is_halted = true →
        reachCount ((Machine.launch n true [COp.haltOp, COp.resumeOp]).run sched).haltGateName
          ((Machine.launch n true [COp.haltOp, COp.resumeOp]).run sched).trace = 1 →
        sinceReachNoExecute
          ((Machine.launch n true [COp.haltOp, COp.resumeOp]).run sched).haltGateName
          ((Machine.launch n true [COp.haltOp, COp.resumeOp]).run sched).trace = true)
    ∧ (((Machine.launch n true [COp.haltOp, COp.resumeOp]).run sched).cpc = CPC.cdone →
        reachCount ((Machine.launch n true [COp.haltOp, COp.resumeOp]).run sched).haltGateName
          ((Machine.launch n true [COp.haltOp, COp.resumeOp]).run sched).trace = 1) := by
  obtain ⟨-, -, hph, -, hhalt, -, -, -, -, -, -, -, -, -, hcnt, hnoexec⟩ :=
    C3Inv_run (Machine.launch n true [COp.haltOp, COp.resumeOp]) sched (C3Inv_launch n)
  refine ⟨?_, ?_, ?_⟩
  · rw [hcnt]
    split <;> omega
  · intro hh hc1
    have h49 := of_decide_eq_true (hhalt.symm.trans hh)
    rw [hcnt] at hc1
    split at hc1
    next hcond => exact hnoexec hcond (by omega)
    next => omega
  · intro hcd
    have hprog :
        ((Machine.launch n true [COp.haltOp, COp.resumeOp]).run sched).prog = [] := by
      rcases hp : ((Machine.launch n true [COp.haltOp, COp.resumeOp]).run sched).prog
        with _ | ⟨op, rest⟩
      · rfl
      · rw [hcd, hp] at hph
        simp [c3CallerPhase] at hph
    rw [hcd, hprog] at hcnt
    simpa [c3CallerPhase] using hcnt

/-- C3 witness: a concrete complete interleaving of `halt()` then
`resume()` in which the caller finishes, so the halt gate is reached
exactly once. -/
theorem C3_halt_gate_once_witness :
    reachCount ((Machine.launch "s" true [COp.haltOp, COp.resumeOp]).run
        [Tid.worker, Tid.caller, Tid.caller, Tid.caller, Tid.caller, Tid.worker,
         Tid.worker, Tid.worker, Tid.caller, Tid.caller, Tid.caller, Tid.caller,
         Tid.caller, Tid.caller, Tid.caller]).haltGateName
      ((Machine.launch "s" true [COp.haltOp, COp.resumeOp]).run
        [Tid.worker, Tid.caller, Tid.caller, Tid.caller, Tid.caller, Tid.worker,
         Tid.worker, Tid.worker, Tid.caller, Tid.caller, Tid.caller, Tid.caller,
         Tid.caller, Tid.caller, Tid.caller]).trace = 1 :=
  (C3_halt_gate_once "s"
    [Tid.worker, Tid.caller, Tid.caller, Tid.caller, Tid.caller, Tid.worker,
     Tid.worker, Tid.worker, Tid.caller, Tid.caller, Tid.caller, Tid.caller,
     Tid.caller, Tid.caller, Tid.caller]).2.2 (by decide)

/-- C3 counterexample to the claim as stated: a halt cycle of a started
continuous subsystem in which the halted flag is set and the subsystem is
not shut down, yet the worker reaches the cycle's gate zero times — not
exactly once. In `secondHaltStuck` the second `halt()` is under way (its
gate `"s.halt"` is registered and unreached, the caller is suspended on
it), but `halt_fulfilled` is still `true` from the first cycle, so the
configuration is closed under both threads' steps: the blocked caller
cannot move, and two worker steps (loop check, halted-and-acknowledged
check) return the machine to exactly the same state without touching the
gate. The cycle's gate can therefore never be reached and `halt()` never
returns. -/
theorem secondHaltStuck_eq :
    secondHaltStuck =
      ⟨"s", true, false, true, true, [⟨"s.halt", false⟩], .loopCheck, .haltWait, [],
        [(Tid.caller, Ev.onHaltEv), (Tid.caller, Ev.onResumeEv),
         (Tid.caller, Ev.afterHaltEv), (Tid.worker, Ev.reachEv "s.halt"),
         (Tid.caller, Ev.onHaltEv), (Tid.worker, Ev.initializeEv)]⟩ := by
  simp [secondHaltStuck, Machine.run, Machine.launch, Machine.step,
    Machine.callerStep, Machine.workerStep, Machine.haltGateName,
    Requires.register, Requires.target, Requires.reach_target,
    Requires.clear_target, Requires.clearLoop, Target.is_reached, Target.reach]

theorem C3_second_halt_counterexample :
    secondHaltStuck.is_halted = true
    ∧ secondHaltStuck.is_shutdown = false
    ∧ secondHaltStuck.cpc = CPC.haltWait
    ∧ secondHaltStuck.registry = [⟨"s.halt", false⟩]
    ∧ secondHaltStuck.halt_fulfilled = true
    ∧ secondHaltStuck.wpc = WPC.loopCheck
    ∧ Machine.callerStep secondHaltStuck = secondHaltStuck
    ∧ Machine.callerStep secondHaltStuck.workerStep = secondHaltStuck.workerStep
    ∧ secondHaltStuck.workerStep.workerStep = secondHaltStuck := by
  rw [secondHaltStuck_eq]
  decide

/-- Companion to the C3 counterexample: under every schedule whatsoever,
the second halt cycle's gate stays unreached in the registry, the caller
stays suspended inside `halt()`, and no further hook event (in particular
no reach) is ever recorded. The states reachable from `secondHaltStuck`
are exactly itself and its one-worker-step successor. -/
theorem C3_second_halt_never_acknowledged (sched : List Tid) :
    (secondHaltStuck.run sched).registry = [⟨"s.halt", false⟩]
    ∧ (secondHaltStuck.run sched).cpc = CPC.haltWait
    ∧ (secondHaltStuck.run sched).trace = secondHaltStuck.trace := by
  have hstep : ∀ (m : Machine) (t : Tid),
      (m = secondHaltStuck ∨ m = secondHaltStuck.workerStep) →
      (m.step t = secondHaltStuck ∨ m.step t = secondHaltStuck.workerStep) := by
    rintro m t (rfl | rfl) <;> cases t
    · exact Or.inl (by rw [secondHaltStuck_eq]; decide)
    · exact Or.inr rfl
    · exact Or.inr (by rw [secondHaltStuck_eq]; decide)
    · exact Or.inl (by rw [secondHaltStuck_eq]; decide)
  have hrun : ∀ (s : List Tid) (m : Machine),
      (m = secondHaltStuck ∨ m = secondHaltStuck.workerStep) →
      (m.run s = secondHaltStuck ∨ m.run s = secondHaltStuck.workerStep) := by
    intro s
    induction s with
    | nil => exact fun m hm => hm
    | cons t ts ih => exact fun m hm => ih _ (hstep m t hm)
  rcases hrun sched secondHaltStuck (Or.inl rfl) with h | h <;>
    rw [h, secondHaltStuck_eq]
  · exact ⟨by decide, by decide, by decide⟩
  · exact ⟨by decide, by decide, by decide⟩

end TracSat
